import Mathlib

/-!
Shallow embedding of the data-preparation pipeline of the word2vec CBOW
assignment notebook (`src/w2v_hw/w2v_hw.ipynb`): vocabulary construction
(cell-6), token filtering (cell-8), the context-to-ids helper (cell-11),
the mini-batch iterator (cell-12) and the dataset-building loop (cell-14).
Tokens are strings and ids are natural numbers.  Python exceptions are
modelled with an explicit error type and `Except`: an uncaught exception
inside a cell aborts the cell, so a failing computation produces no value.
-/

/-- Python exception kinds that are relevant to the modelled cells.
`indexError` models the `IndexError` raised by `list(zip(*pairs))[0]` when
`pairs` is empty (cell-6); `keyError` models a failed dict lookup
`word_to_ix[w]` (cell-11 and cell-14).  `invalidSizeError` and
`insufficientDataError` are error kinds that are named by the
specification only: the notebook never defines nor raises them; they are
included so that the specification-level statements about them can be
expressed and settled. -/
inductive PyError where
  | indexError
  | keyError
  | invalidSizeError
  | insufficientDataError
deriving DecidableEq

/-- Default token used to express the Python list indexing `text[i]`
through `List.getD`; every access performed by the modelled code is in
range, so this default value is never actually read. -/
def emptyTok : String := ""

/-- First occurrences of the elements of a list, in order of first
appearance, skipping the elements already `seen`. -/
def firstOccsAux (seen : List String) : List String → List String
  | [] => []
  | a :: l => if a ∈ seen then firstOccsAux seen l else a :: firstOccsAux (a :: seen) l

/-- The distinct tokens of a list in order of first occurrence: the keys
of the Python dict `Counter(raw_text)` (cell-6), since a `dict`
enumerates its keys in insertion order, i.e. first-occurrence order. -/
def firstOccs (l : List String) : List String := firstOccsAux [] l

/-- The list of words of `Counter(tokens).most_common(K)` (cell-6): the
distinct tokens sorted by decreasing count and truncated to the first
`K`.  `most_common` is documented as equivalent to
`sorted(counter.items(), key=itemgetter(1), reverse=True)[:K]`, a stable
sort, so tokens with equal counts keep their first-occurrence order. -/
def most_common (tokens : List String) (K : Nat) : List String :=
  (@List.insertionSort String (fun a b => tokens.count b ≤ tokens.count a)
    (fun a b => Nat.decLe (tokens.count b) (tokens.count a)) (firstOccs tokens)).take K

/-- Cell-6 vocabulary construction, generalised over the hard-coded size
1000: `vocab = set(list(zip(*Counter(raw_text).most_common(K)))[0])`.
When `most_common` returns no pairs (empty token stream, or `K = 0`),
`list(zip(*pairs))` is the empty list and indexing it with `[0]` raises
an `IndexError`.  Otherwise the result is the list of selected words;
these are pairwise distinct, so the Python set `vocab` holds exactly the
elements of this list.  The iteration order of that set is an
unspecified permutation of this list; theorems quantify over the
enumeration order where it matters. -/
def build_vocab (tokens : List String) (K : Nat) : Except PyError (List String) :=
  if most_common tokens K = [] then Except.error PyError.indexError
  else Except.ok (most_common tokens K)

/-- Cell-8 text filtering: `text = [r for r in raw_text if r in vocab]`. -/
def filter_tokens (tokens voc : List String) : List String :=
  tokens.filter (fun r => decide (r ∈ voc))

/-- The dict `word_to_ix` built in cell-14 by enumerating the vocabulary
set, as a lookup function over the set's enumeration order `enum`;
`none` models a `KeyError`.  The enumeration of a set has no duplicate
entries, so the first index returned here is the only index. -/
def word_to_ix : List String → String → Option Nat
  | [], _ => none
  | a :: l, w => if a = w then some 0 else (word_to_ix l w).map (fun n => n + 1)

/-- Cell-11 helper `make_context_vector`:
`idxs = [word_to_ix[w] for w in context]`; a token that is not a key of
the dict raises a `KeyError`. -/
def make_context_vector : List String → (String → Option Nat) → Except PyError (List Nat)
  | [], _ => Except.ok []
  | w :: ws, f =>
    match f w with
    | none => Except.error PyError.keyError
    | some i =>
      match make_context_vector ws f with
      | Except.error e => Except.error e
      | Except.ok is => Except.ok (i :: is)

/-- The context token list built by cell-14 for center index `i`:
`[text[i + j] for j in range(-W, W+1) if not j==0]`, re-indexed by
`k = j + W` ranging over `range (2*W+1)` with the center `k = W`
excluded.  The loop of cell-14 only evaluates this with `W ≤ i` and
`i + W < text.length`, where the natural-number index `i - W + k` agrees
with the integer index `i + j` and every access is in range. -/
def context_at (text : List String) (W i : Nat) : List String :=
  ((List.range (2 * W + 1)).filter (fun k => decide (k ≠ W))).map
    (fun k => text.getD (i - W + k) emptyTok)

/-- The cell-14 loop body, iterated over the list `is` of center
indices: for each center `i` translate the surrounding context through
`make_context_vector` and the target `text[i]` through the dict, and
collect the results into the two lists `X` and `Y`.  An uncaught
`KeyError` aborts the cell, so no dataset value is produced on
failure. -/
def make_dataset_go (text : List String) (f : String → Option Nat) (W : Nat) :
    List Nat → Except PyError (List (List Nat) × List Nat)
  | [] => Except.ok ([], [])
  | i :: is =>
    match make_context_vector (context_at text W i) f with
    | Except.error e => Except.error e
    | Except.ok c =>
      match f (text.getD i emptyTok) with
      | none => Except.error PyError.keyError
      | some t =>
        match make_dataset_go text f W is with
        | Except.error e => Except.error e
        | Except.ok p => Except.ok (c :: p.1, t :: p.2)

/-- Cell-14 dataset building:
`for i in range(CONTEXT_SIZE, len(text) - CONTEXT_SIZE)` with window
radius `W = CONTEXT_SIZE`.  The Python range has
`max(0, len(text) - 2*W)` elements, which is the truncated subtraction
`text.length - 2*W`, and visits the centers in increasing order. -/
def make_dataset (text : List String) (f : String → Option Nat) (W : Nat) :
    Except PyError (List (List Nat) × List Nat) :=
  make_dataset_go text f W (List.range' W (text.length - 2 * W))

/-- The full preparation pipeline of the notebook run once: build the
vocabulary (cell-6), filter the raw text by it (cell-8), and build the
dataset with the id mapping enumerated from the vocabulary (cell-14).
Within one interpreter process the iteration order of the Python set
`vocab` is a fixed function of its contents; it is modelled here by the
construction order of the selected words. -/
def full_pipeline (tokens : List String) (K W : Nat) :
    Except PyError (List (List Nat) × List Nat) :=
  match build_vocab tokens K with
  | Except.error e => Except.error e
  | Except.ok voc => make_dataset (filter_tokens tokens voc) (word_to_ix voc) W

/-- Cell-12 `data_batcher(X, Y, batch_size)`, with the shuffle line
commented out in the source: starting from `count = 0`, while
`count < X.shape[0]`, yield the rows `count : count + batch_size` of `X`
and of `Y` and advance `count` by `batch_size`.  The yielded batches are
collected into a list here.  For `batch_size = 0` the Python loop would
not terminate; the model returns `[]` there, a case no claim relies on
(the claims assume a batch size of at least 1). -/
def data_batcher (B : Nat) (X : List (List Nat)) (Y : List Nat) :
    List (List (List Nat) × List Nat) :=
  if h : B = 0 ∨ X = [] then []
  else (X.take B, Y.take B) :: data_batcher B (X.drop B) (Y.drop B)
termination_by X.length
decreasing_by
  simp only [not_or] at h
  simp only [List.length_drop]
  exact Nat.sub_lt (List.length_pos.mpr h.2) (Nat.pos_of_ne_zero h.1)

/-! ### Helper lemmas: first occurrences and vocabulary construction -/

theorem mem_firstOccsAux (b : String) :
    ∀ (l seen : List String), b ∈ firstOccsAux seen l ↔ b ∈ l ∧ b ∉ seen := by
  intro l
  induction l with
  | nil => intro seen; simp [firstOccsAux]
  | cons a l ih =>
    intro seen
    by_cases ha : a ∈ seen
    · rw [firstOccsAux, if_pos ha, ih seen]
      constructor
      · rintro ⟨h1, h2⟩
        exact ⟨List.mem_cons_of_mem a h1, h2⟩
      · rintro ⟨h1, h2⟩
        rcases List.mem_cons.mp h1 with h1 | h1
        · exact absurd (h1 ▸ ha) h2
        · exact ⟨h1, h2⟩
    · rw [firstOccsAux, if_neg ha, List.mem_cons, ih (a :: seen)]
      constructor
      · rintro (rfl | ⟨h1, h2⟩)
        · exact ⟨List.mem_cons_self b l, ha⟩
        · refine ⟨List.mem_cons_of_mem a h1, fun hb => h2 (List.mem_cons_of_mem a hb)⟩
      · rintro ⟨h1, h2⟩
        rcases List.mem_cons.mp h1 with h1 | h1
        · exact Or.inl h1
        · by_cases hba : b = a
          · exact Or.inl hba
          · right
            refine ⟨h1, fun hb => ?_⟩
            rcases List.mem_cons.mp hb with h3 | h3
            · exact hba h3
            · exact h2 h3

theorem nodup_firstOccsAux :
    ∀ (l seen : List String), (firstOccsAux seen l).Nodup := by
  intro l
  induction l with
  | nil => intro seen; simp [firstOccsAux]
  | cons a l ih =>
    intro seen
    by_cases ha : a ∈ seen
    · rw [firstOccsAux, if_pos ha]; exact ih seen
    · rw [firstOccsAux, if_neg ha, List.nodup_cons]
      refine ⟨fun hmem => ?_, ih (a :: seen)⟩
      exact ((mem_firstOccsAux a l (a :: seen)).mp hmem).2 (List.mem_cons_self a seen)

theorem mem_firstOccs (b : String) (l : List String) : b ∈ firstOccs l ↔ b ∈ l := by
  simp [firstOccs, mem_firstOccsAux]

theorem nodup_firstOccs (l : List String) : (firstOccs l).Nodup :=
  nodup_firstOccsAux l []

theorem length_firstOccs (l : List String) : (firstOccs l).length = l.toFinset.card := by
  have h1 : (firstOccs l).toFinset = l.toFinset := by
    ext x; simp [List.mem_toFinset, mem_firstOccs]
  calc (firstOccs l).length = (firstOccs l).dedup.length := by
        rw [(nodup_firstOccs l).dedup]
    _ = (firstOccs l).toFinset.card := (List.card_toFinset _).symm
    _ = l.toFinset.card := by rw [h1]

theorem length_most_common (tokens : List String) (K : Nat) :
    (most_common tokens K).length = min K tokens.toFinset.card := by
  unfold most_common
  rw [List.length_take, (List.perm_insertionSort _ _).length_eq, length_firstOccs]

theorem nodup_most_common (tokens : List String) (K : Nat) :
    (most_common tokens K).Nodup := by
  unfold most_common
  exact (List.take_sublist _ _).nodup
    ((List.perm_insertionSort _ _).nodup_iff.mpr (nodup_firstOccs tokens))

theorem build_vocab_ok (tokens : List String) (K : Nat) (hK : 1 ≤ K)
    (hne : tokens ≠ []) : build_vocab tokens K = Except.ok (most_common tokens K) := by
  have hcard : 0 < tokens.toFinset.card := by
    obtain ⟨a, ha⟩ := List.exists_mem_of_ne_nil tokens hne
    exact Finset.card_pos.mpr ⟨a, List.mem_toFinset.mpr ha⟩
  have hlen : 0 < (most_common tokens K).length := by
    rw [length_most_common]; omega
  unfold build_vocab
  rw [if_neg (List.length_pos.mp hlen)]

/-! ### Helper lemmas: the enumerated id mapping -/

theorem word_to_ix_of_mem :
    ∀ (enum : List String) (w : String), w ∈ enum →
      ∃ i, word_to_ix enum w = some i ∧ i < enum.length := by
  intro enum
  induction enum with
  | nil => intro w h; simp at h
  | cons a l ih =>
    intro w hw
    by_cases haw : a = w
    · exact ⟨0, by simp [word_to_ix, haw], by simp⟩
    · have hwl : w ∈ l := by
        rcases List.mem_cons.mp hw with h | h
        · exact absurd h.symm haw
        · exact h
      obtain ⟨i, h1, h2⟩ := ih w hwl
      refine ⟨i + 1, ?_, by simp; omega⟩
      simp only [word_to_ix, if_neg haw, h1, Option.map_some']

theorem word_to_ix_get (enum : List String) (w : String) (i : Nat)
    (h : word_to_ix enum w = some i) : enum.get? i = some w := by
  induction enum generalizing w i with
  | nil => simp [word_to_ix] at h
  | cons a l ih =>
    simp only [word_to_ix] at h
    by_cases haw : a = w
    · rw [if_pos haw] at h
      obtain rfl : (0 : Nat) = i := Option.some.inj h
      simp [haw]
    · rw [if_neg haw] at h
      obtain ⟨j, hj, rfl⟩ := Option.map_eq_some'.mp h
      simpa using ih w j hj

theorem word_to_ix_surj :
    ∀ (enum : List String), enum.Nodup → ∀ i, i < enum.length →
      ∃ w, w ∈ enum ∧ word_to_ix enum w = some i := by
  intro enum
  induction enum with
  | nil => intro _ i h; simp at h
  | cons a l ih =>
    intro hnd i hi
    obtain ⟨hal, hndl⟩ := List.nodup_cons.mp hnd
    cases i with
    | zero => exact ⟨a, List.mem_cons_self a l, by simp [word_to_ix]⟩
    | succ i =>
      obtain ⟨w, hw, hwi⟩ := ih hndl i (by simpa using hi)
      have haw : ¬ a = w := fun h => hal (h ▸ hw)
      exact ⟨w, List.mem_cons_of_mem a hw,
        by simp only [word_to_ix, if_neg haw, hwi, Option.map_some']⟩

theorem word_to_ix_isSome_of_mem (enum : List String) (w : String) (h : w ∈ enum) :
    (word_to_ix enum w).isSome := by
  obtain ⟨i, hi, _⟩ := word_to_ix_of_mem enum w h
  rw [hi]; rfl

/-! ### Helper lemmas: the dataset-building loop -/

theorem make_context_vector_ok :
    ∀ (c : List String) (f : String → Option Nat),
      (∀ w ∈ c, (f w).isSome) →
      make_context_vector c f = Except.ok (c.map (fun w => (f w).getD 0)) := by
  intro c f
  induction c with
  | nil => intro _; rfl
  | cons w ws ih =>
    intro h
    obtain ⟨i, hi⟩ := Option.isSome_iff_exists.mp (h w (List.mem_cons_self w ws))
    have hws := ih (fun x hx => h x (List.mem_cons_of_mem w hx))
    simp only [make_context_vector, hi, hws, List.map_cons]
    rfl

theorem mem_context_at (text : List String) (W i : Nat)
    (h1 : W ≤ i) (h2 : i + W < text.length) :
    ∀ x ∈ context_at text W i, x ∈ text := by
  intro x hx
  simp only [context_at, List.mem_map] at hx
  obtain ⟨k, hk, rfl⟩ := hx
  have hk3 : k < 2 * W + 1 := List.mem_range.mp (List.mem_filter.mp hk).1
  have hlt : i - W + k < text.length := by omega
  rw [List.getD_eq_getElem text emptyTok hlt]
  exact List.getElem_mem hlt

theorem getD_mem_of_lt (text : List String) (i : Nat) (h : i < text.length) :
    text.getD i emptyTok ∈ text := by
  rw [List.getD_eq_getElem text emptyTok h]
  exact List.getElem_mem h

theorem make_dataset_go_ok (text : List String) (f : String → Option Nat) (W : Nat) :
    ∀ (is : List Nat), (∀ i ∈ is, W ≤ i ∧ i + W < text.length) →
      (∀ w ∈ text, (f w).isSome) →
      make_dataset_go text f W is = Except.ok
        (is.map (fun i => (context_at text W i).map (fun w => (f w).getD 0)),
         is.map (fun i => (f (text.getD i emptyTok)).getD 0)) := by
  intro is
  induction is with
  | nil => intro _ _; rfl
  | cons i is ih =>
    intro hb hf
    obtain ⟨hi1, hi2⟩ := hb i (List.mem_cons_self i is)
    have hctx : make_context_vector (context_at text W i) f
        = Except.ok ((context_at text W i).map (fun w => (f w).getD 0)) :=
      make_context_vector_ok _ f (fun w hw => hf w (mem_context_at text W i hi1 hi2 w hw))
    have htgt : (f (text.getD i emptyTok)).isSome :=
      hf _ (getD_mem_of_lt text i (by omega))
    obtain ⟨t, ht⟩ := Option.isSome_iff_exists.mp htgt
    have hrest := ih (fun j hj => hb j (List.mem_cons_of_mem i hj)) hf
    simp only [make_dataset_go, hctx, ht, hrest, List.map_cons]
    rfl

theorem make_dataset_spec (text : List String) (f : String → Option Nat) (W : Nat)
    (hf : ∀ w ∈ text, (f w).isSome) :
    make_dataset text f W = Except.ok
      ((List.range' W (text.length - 2 * W)).map
          (fun i => (context_at text W i).map (fun w => (f w).getD 0)),
       (List.range' W (text.length - 2 * W)).map
          (fun i => (f (text.getD i emptyTok)).getD 0)) := by
  unfold make_dataset
  refine make_dataset_go_ok text f W _ ?_ hf
  intro i hi
  obtain ⟨hi1, hi2⟩ := List.mem_range'_1.mp hi
  exact ⟨hi1, by omega⟩

/-! ### Helper lemmas: the shape of the context window -/

theorem range'_map_getD (text : List String) :
    ∀ (n s : Nat), s + n ≤ text.length →
      (List.range' s n).map (fun j => text.getD j emptyTok) = (text.drop s).take n := by
  intro n
  induction n with
  | zero => intro s _; simp
  | succ n ih =>
    intro s h
    have hs : s < text.length := by omega
    rw [List.range'_succ, List.map_cons, ih (s + 1) (by omega),
      List.getD_eq_getElem text emptyTok hs, List.drop_eq_getElem_cons hs,
      List.take_succ_cons]

theorem range'_map_shift {β : Type} (g : Nat → β) (c : Nat) :
    ∀ (n s : Nat), (List.range' s n).map (fun k => g (c + k)) = (List.range' (c + s) n).map g := by
  intro n
  induction n with
  | zero => intro s; simp
  | succ n ih =>
    intro s
    rw [List.range'_succ, List.range'_succ, List.map_cons, List.map_cons, ih (s + 1)]
    have e : c + (s + 1) = c + s + 1 := by omega
    rw [e]

theorem range_filter_split (W : Nat) :
    (List.range (2 * W + 1)).filter (fun k => decide (k ≠ W))
      = List.range W ++ List.range' (W + 1) W := by
  have e1 : 2 * W + 1 = W + (W + 1) := by omega
  have e2 : List.range (2 * W + 1) = List.range' 0 (W + 1) ++ List.range' (W + 1) W := by
    rw [List.range_eq_range', e1]
    have h := List.range'_append 0 (W + 1) W 1
    simp only [Nat.one_mul, Nat.zero_add] at h
    rw [← h]
  rw [e2, List.filter_append]
  have e3 : List.range' 0 (W + 1) = List.range' 0 W ++ [W] := by
    have h := List.range'_append 0 W 1 1
    simp only [Nat.one_mul, Nat.zero_add] at h
    have e : W + 1 = 1 + W := by omega
    rw [e, ← h]
    rfl
  rw [e3, List.filter_append]
  have e4 : (List.range' 0 W).filter (fun k => decide (k ≠ W)) = List.range' 0 W := by
    rw [List.filter_eq_self]
    intro a ha
    have := List.mem_range'_1.mp ha
    exact decide_eq_true (by omega)
  have e5 : ([W] : List Nat).filter (fun k => decide (k ≠ W)) = [] := by simp
  have e6 : (List.range' (W + 1) W).filter (fun k => decide (k ≠ W)) = List.range' (W + 1) W := by
    rw [List.filter_eq_self]
    intro a ha
    have := List.mem_range'_1.mp ha
    exact decide_eq_true (by omega)
  rw [e4, e5, e6, List.range_eq_range']
  simp

theorem context_at_eq (text : List String) (W i : Nat)
    (h1 : W ≤ i) (h2 : i + W < text.length) :
    context_at text W i = (text.drop (i - W)).take W ++ (text.drop (i + 1)).take W := by
  unfold context_at
  rw [range_filter_split, List.map_append]
  have left : (List.range W).map (fun k => text.getD (i - W + k) emptyTok)
      = (text.drop (i - W)).take W := by
    rw [List.range_eq_range', range'_map_shift (fun j => text.getD j emptyTok) (i - W) W 0]
    have e : i - W + 0 = i - W := by omega
    rw [e, range'_map_getD text W (i - W) (by omega)]
  have right : (List.range' (W + 1) W).map (fun k => text.getD (i - W + k) emptyTok)
      = (text.drop (i + 1)).take W := by
    rw [range'_map_shift (fun j => text.getD j emptyTok) (i - W) W (W + 1)]
    have e : i - W + (W + 1) = i + 1 := by omega
    rw [e, range'_map_getD text W (i + 1) (by omega)]
  rw [left, right]

theorem get?_range'_eq :
    ∀ (n s k : Nat), k < n → (List.range' s n).get? k = some (s + k) := by
  intro n
  induction n with
  | zero => intro s k h; omega
  | succ n ih =>
    intro s k h
    rw [List.range'_succ]
    cases k with
    | zero => simp
    | succ k =>
      rw [List.get?_cons_succ, ih (s + 1) k (by omega)]
      have e : s + 1 + k = s + (k + 1) := by omega
      rw [e]

/-! ### Helper lemmas: the mini-batch iterator -/

theorem data_batcher_nil (B : Nat) (Y : List Nat) : data_batcher B [] Y = [] := by
  rw [data_batcher]
  simp

theorem data_batcher_cons (B : Nat) (X : List (List Nat)) (Y : List Nat)
    (hB : B ≠ 0) (hX : X ≠ []) :
    data_batcher B X Y = (X.take B, Y.take B) :: data_batcher B (X.drop B) (Y.drop B) := by
  rw [data_batcher, dif_neg (not_or.mpr ⟨hB, hX⟩)]

theorem data_batcher_ne_nil (B : Nat) (X : List (List Nat)) (Y : List Nat)
    (hB : B ≠ 0) (hX : X ≠ []) : data_batcher B X Y ≠ [] := by
  rw [data_batcher_cons B X Y hB hX]
  exact List.cons_ne_nil _ _

theorem data_batcher_main (B : Nat) (hB : 1 ≤ B) :
    ∀ (n : Nat) (X : List (List Nat)) (Y : List Nat), X.length ≤ n → Y.length = X.length →
      ((data_batcher B X Y).map Prod.fst).flatten = X ∧
      ((data_batcher B X Y).map Prod.snd).flatten = Y ∧
      (∀ p ∈ (data_batcher B X Y).dropLast, p.1.length = B ∧ p.2.length = B) ∧
      (∀ p ∈ data_batcher B X Y, p.1.length ≤ B ∧ p.2.length = p.1.length) := by
  intro n
  induction n with
  | zero =>
    intro X Y hn hlen
    obtain rfl : X = [] := List.eq_nil_of_length_eq_zero (by omega)
    obtain rfl : Y = [] := List.eq_nil_of_length_eq_zero (by simpa using hlen)
    rw [data_batcher_nil]
    refine ⟨rfl, rfl, ?_, ?_⟩ <;> intro p hp <;> simp at hp
  | succ n ih =>
    intro X Y hn hlen
    by_cases hX : X = []
    · subst hX
      obtain rfl : Y = [] := List.eq_nil_of_length_eq_zero (by simpa using hlen)
      rw [data_batcher_nil]
      refine ⟨rfl, rfl, ?_, ?_⟩ <;> intro p hp <;> simp at hp
    · have hXpos : 0 < X.length := List.length_pos.mpr hX
      have hIH := ih (X.drop B) (Y.drop B)
        (by rw [List.length_drop]; omega)
        (by rw [List.length_drop, List.length_drop, hlen])
      obtain ⟨ih1, ih2, ih3, ih4⟩ := hIH
      rw [data_batcher_cons B X Y (by omega) hX]
      refine ⟨?_, ?_, ?_, ?_⟩
      · rw [List.map_cons, List.flatten_cons, ih1]
        exact List.take_append_drop B X
      · rw [List.map_cons, List.flatten_cons, ih2]
        exact List.take_append_drop B Y
      · intro p hp
        by_cases hrest : X.drop B = []
        · rw [hrest, data_batcher_nil, List.dropLast_single] at hp
          simp at hp
        · rw [List.dropLast_cons_of_ne_nil
            (data_batcher_ne_nil B (X.drop B) (Y.drop B) (by omega) hrest)] at hp
          rcases List.mem_cons.mp hp with rfl | hp
          · have hBlt : B < X.length := by
              by_contra hc
              exact hrest (List.drop_eq_nil_iff.mpr (by omega))
            constructor
            · rw [List.length_take]; omega
            · rw [List.length_take]; omega
          · exact ih3 p hp
      · intro p hp
        rcases List.mem_cons.mp hp with rfl | hp
        · refine ⟨List.length_take_le B X, ?_⟩
          rw [List.length_take, List.length_take]
          omega
        · exact ih4 p hp

/-! ### Claim theorems -/

/-- C1: for every filtered token sequence, id mapping defined on its
tokens, and window radius `W ≥ 1`, the cell-14 loop produces exactly
`max(0, L - 2*W)` examples, the `k`-th one centered at index `i = W + k`
(so the centers `W ≤ i < L - W` are taken in increasing order); its
context is exactly the ids of the `W` tokens left of `i` followed by the
ids of the `W` tokens right of `i`, in left-to-right order with the
center excluded, and its target is the id of the token at `i`. -/
theorem c1_window_examples (text : List String) (f : String → Option Nat) (W : Nat)
    (hW : 1 ≤ W) (hf : ∀ w ∈ text, (f w).isSome) :
    ∃ X Y, make_dataset text f W = Except.ok (X, Y) ∧
      X.length = text.length - 2 * W ∧ Y.length = text.length - 2 * W ∧
      (∀ k, k < text.length - 2 * W →
        X.get? k = some ((((text.drop k).take W) ++ ((text.drop (W + k + 1)).take W)).map
            (fun w => (f w).getD 0)) ∧
        Y.get? k = some ((f (text.getD (W + k) emptyTok)).getD 0)) := by
  refine ⟨_, _, make_dataset_spec text f W hf, ?_, ?_, ?_⟩
  · rw [List.length_map, List.length_range']
  · rw [List.length_map, List.length_range']
  · intro k hk
    constructor
    · rw [List.get?_map, get?_range'_eq _ _ _ hk]
      simp only [Option.map_some']
      rw [context_at_eq text W (W + k) (by omega) (by omega)]
      have e1 : W + k - W = k := by omega
      rw [e1]
    · rw [List.get?_map, get?_range'_eq _ _ _ hk]
      simp only [Option.map_some']

/-- Witness for C1 at the concrete input `text = ["a","b","c"]`,
`f = word_to_ix ["a","b","c"]`, `W = 1`. -/
theorem c1_window_examples_witness :
    (1 ≤ 1) ∧
    (∀ w ∈ (["a","b","c"] : List String), ((word_to_ix ["a","b","c"]) w).isSome) ∧
    (∃ X Y, make_dataset ["a","b","c"] (word_to_ix ["a","b","c"]) 1 = Except.ok (X, Y) ∧
      X.length = (["a","b","c"] : List String).length - 2 * 1 ∧
      Y.length = (["a","b","c"] : List String).length - 2 * 1 ∧
      (∀ k, k < (["a","b","c"] : List String).length - 2 * 1 →
        X.get? k = some (((((["a","b","c"] : List String).drop k).take 1)
            ++ (((["a","b","c"] : List String).drop (1 + k + 1)).take 1)).map
            (fun w => ((word_to_ix ["a","b","c"]) w).getD 0)) ∧
        Y.get? k = some (((word_to_ix ["a","b","c"])
            ((["a","b","c"] : List String).getD (1 + k) emptyTok)).getD 0))) :=
  ⟨by decide, by decide,
   c1_window_examples ["a","b","c"] (word_to_ix ["a","b","c"]) 1 (by decide) (by decide)⟩

/-- C2: on the tokens `["a","b","c","d","e"]` with the vocabulary
`a,b,c,d,e` enumerated so that `a = 0, b = 1, c = 2, d = 3, e = 4`,
the windowing step with radius 2 yields exactly one example with context
`[0, 1, 3, 4]` and target `2`. -/
theorem c2_concrete_example :
    make_dataset (filter_tokens ["a","b","c","d","e"] ["a","b","c","d","e"])
      (word_to_ix ["a","b","c","d","e"]) 2 = Except.ok ([[0,1,3,4]], [2]) := rfl

/-- C3 (amended: the input token sequence must be nonempty, since cell-6
raises an `IndexError` on an empty stream): for every nonempty token
sequence and `K ≥ 1`, vocabulary construction succeeds with exactly
`min K (number of distinct tokens)` entries, and for any enumeration
order of the vocabulary set the id mapping is a bijection onto
`[0, size)`: every entry gets some id below the size, distinct entries
get distinct ids, and every id below the size is used. -/
theorem c3_build_vocabulary (tokens : List String) (K : Nat) (hK : 1 ≤ K)
    (hne : tokens ≠ []) :
    ∃ voc, build_vocab tokens K = Except.ok voc ∧
      voc.length = min K tokens.toFinset.card ∧
      ∀ enum, enum.Perm voc →
        (∀ w ∈ voc, ∃ i, word_to_ix enum w = some i ∧ i < voc.length) ∧
        (∀ w v i, word_to_ix enum w = some i → word_to_ix enum v = some i → w = v) ∧
        (∀ i, i < voc.length → ∃ w ∈ voc, word_to_ix enum w = some i) := by
  refine ⟨most_common tokens K, build_vocab_ok tokens K hK hne,
    length_most_common tokens K, ?_⟩
  intro enum hperm
  have hlen : enum.length = (most_common tokens K).length := hperm.length_eq
  have hnd : enum.Nodup := hperm.nodup_iff.mpr (nodup_most_common tokens K)
  refine ⟨?_, ?_, ?_⟩
  · intro w hw
    obtain ⟨i, hi, hilt⟩ := word_to_ix_of_mem enum w (hperm.mem_iff.mpr hw)
    exact ⟨i, hi, by omega⟩
  · intro w v i hw hv
    have h1 := word_to_ix_get enum w i hw
    have h2 := word_to_ix_get enum v i hv
    exact Option.some.inj (h1.symm.trans h2)
  · intro i hi
    obtain ⟨w, hw, hwi⟩ := word_to_ix_surj enum hnd i (by omega)
    exact ⟨w, hperm.mem_iff.mp hw, hwi⟩

/-- Counterexample to C3 as stated: on the empty token sequence with
`K = 1` the vocabulary construction does not return a vocabulary at all
(cell-6 raises an `IndexError` when indexing the empty zip result),
whereas the claim requires `min(1, 0) = 0` entries to be returned. -/
theorem c3_counterexample_empty_input :
    ¬ ∃ voc, build_vocab ([] : List String) 1 = Except.ok voc := by
  rintro ⟨voc, h⟩
  rw [show build_vocab ([] : List String) 1 = Except.error PyError.indexError from rfl] at h
  exact Except.noConfusion h

/-- Witness for C3 at the concrete input `tokens = ["b","a","b"]`,
`K = 2`. -/
theorem c3_build_vocabulary_witness :
    (1 ≤ 2) ∧ ((["b","a","b"] : List String) ≠ []) ∧
    (∃ voc, build_vocab ["b","a","b"] 2 = Except.ok voc ∧
      voc.length = min 2 (["b","a","b"] : List String).toFinset.card ∧
      ∀ enum, enum.Perm voc →
        (∀ w ∈ voc, ∃ i, word_to_ix enum w = some i ∧ i < voc.length) ∧
        (∀ w v i, word_to_ix enum w = some i → word_to_ix enum v = some i → w = v) ∧
        (∀ i, i < voc.length → ∃ w ∈ voc, word_to_ix enum w = some i)) :=
  ⟨by decide, by decide, c3_build_vocabulary ["b","a","b"] 2 (by decide) (by decide)⟩

/-- C4: for every token sequence and vocabulary, the cell-8 filtering
returns a subsequence of the input (hence order-preserving), every
element of the output is a vocabulary member, and no input occurrence of
a vocabulary member is dropped (occurrence counts are preserved). -/
theorem c4_filter_tokens_spec (tokens voc : List String) :
    (filter_tokens tokens voc).Sublist tokens ∧
    (∀ x ∈ filter_tokens tokens voc, x ∈ voc) ∧
    (∀ x ∈ voc, (filter_tokens tokens voc).count x = tokens.count x) := by
  refine ⟨List.filter_sublist tokens, ?_, ?_⟩
  · intro x hx
    exact of_decide_eq_true (List.mem_filter.mp hx).2
  · intro x hx
    exact List.count_filter (decide_eq_true hx)

/-- Counterexample to C5 as stated: on the filtered sequence `["a"]`
with window radius 1 (length 1 < 2*1 + 1, so no valid center exists) the
cell-14 loop does not fail with `InsufficientDataError` — no such error
exists in the notebook and the loop body simply never runs. -/
theorem c5_counterexample_short_input :
    make_dataset ["a"] (word_to_ix ["a"]) 1 ≠ Except.error PyError.insufficientDataError := by
  intro h
  rw [show make_dataset ["a"] (word_to_ix ["a"]) 1
      = Except.ok (([] : List (List Nat)), ([] : List Nat)) from rfl] at h
  exact Except.noConfusion h

/-- C5 (amended: the code raises no error on short input; the loop of
cell-14 runs zero times and returns the complete — empty — dataset, so a
fortiori no partial dataset is produced): for every filtered sequence
shorter than `2*W + 1` the windowing step succeeds with the empty
dataset. -/
theorem c5_short_input_empty_dataset (text : List String) (f : String → Option Nat)
    (W : Nat) (h : text.length < 2 * W + 1) :
    make_dataset text f W = Except.ok ([], []) := by
  unfold make_dataset
  rw [show text.length - 2 * W = 0 from by omega]
  rfl

/-- Witness for the amended C5 at the concrete input `["a"]`, `W = 1`. -/
theorem c5_short_input_empty_dataset_witness :
    ((["a"] : List String).length < 2 * 1 + 1) ∧
    make_dataset ["a"] (word_to_ix ["a"]) 1 = Except.ok ([], []) :=
  ⟨by decide, c5_short_input_empty_dataset ["a"] (word_to_ix ["a"]) 1 (by decide)⟩

/-- Counterexample to C6 as stated: the filtered sequence `["a","b"]`
has length exactly `2*W` for `W = 1`, but the cell-14 loop produces zero
examples, not one — `range(1, 2 - 1)` is empty. -/
theorem c6_counterexample_length_2w :
    ¬ ∃ X Y, make_dataset ["a","b"] (word_to_ix ["a","b"]) 1 = Except.ok (X, Y)
      ∧ X.length = 1 := by
  rintro ⟨X, Y, h, hX⟩
  rw [show make_dataset ["a","b"] (word_to_ix ["a","b"]) 1
      = Except.ok (([] : List (List Nat)), ([] : List Nat)) from rfl] at h
  have h2 := Except.ok.inj h
  have hXe : ([] : List (List Nat)) = X := congrArg Prod.fst h2
  rw [← hXe] at hX
  exact absurd hX (by decide)

/-- C6 (amended: the one-example boundary is at length `2*W + 1`, not
`2*W`, and short sequences yield an empty dataset instead of an
`InsufficientDataError`): a filtered sequence of length exactly `2*W`
produces zero examples, and a filtered sequence of length exactly
`2*W + 1` produces exactly one example, centered at index `W`. -/
theorem c6_boundary (text : List String) (f : String → Option Nat) (W : Nat)
    (hW : 1 ≤ W) :
    (text.length = 2 * W → make_dataset text f W = Except.ok ([], [])) ∧
    (text.length = 2 * W + 1 → (∀ w ∈ text, (f w).isSome) →
      make_dataset text f W = Except.ok
        ([((text.take W) ++ (text.drop (W + 1))).map (fun w => (f w).getD 0)],
         [(f (text.getD W emptyTok)).getD 0])) := by
  constructor
  · intro hlen
    unfold make_dataset
    rw [show text.length - 2 * W = 0 from by omega]
    rfl
  · intro hlen hf
    rw [make_dataset_spec text f W hf, show text.length - 2 * W = 1 from by omega]
    rw [show List.range' W 1 = [W] from rfl]
    simp only [List.map_cons, List.map_nil]
    have hctx : context_at text W W = (text.take W) ++ (text.drop (W + 1)) := by
      rw [context_at_eq text W W (Nat.le_refl W) (by omega)]
      rw [show W - W = 0 from by omega, List.drop_zero]
      congr 1
      exact List.take_of_length_le (by rw [List.length_drop]; omega)
    rw [hctx]

/-- Witness for the amended C6 at `W = 1` with the concrete inputs
`["a","b"]` (length exactly `2*W`) and `["a","b","c"]` (length exactly
`2*W + 1`). -/
theorem c6_boundary_witness :
    (1 ≤ 1) ∧
    make_dataset ["a","b"] (word_to_ix ["a","b"]) 1 = Except.ok ([], []) ∧
    make_dataset ["a","b","c"] (word_to_ix ["a","b","c"]) 1 = Except.ok
      ([(((["a","b","c"] : List String).take 1) ++ ((["a","b","c"] : List String).drop (1 + 1))).map
          (fun w => ((word_to_ix ["a","b","c"]) w).getD 0)],
       [((word_to_ix ["a","b","c"]) ((["a","b","c"] : List String).getD 1 emptyTok)).getD 0]) :=
  ⟨by decide,
   (c6_boundary ["a","b"] (word_to_ix ["a","b"]) 1 (by decide)).1 (by decide),
   (c6_boundary ["a","b","c"] (word_to_ix ["a","b","c"]) 1 (by decide)).2 (by decide) (by decide)⟩

/-- Counterexample to C7 as stated: requesting the vocabulary with size
0 on the tokens `["a"]` does not fail with `InvalidSizeError` — the
notebook defines no such error; `most_common(0)` returns no pairs and
cell-6 fails with an `IndexError` instead. -/
theorem c7_counterexample_error_kind :
    build_vocab ["a"] 0 ≠ Except.error PyError.invalidSizeError := by
  intro h
  rw [show build_vocab ["a"] 0 = Except.error PyError.indexError from rfl] at h
  exact absurd (Except.error.inj h) (by decide)

/-- C7 (amended: the failure is an uncaught `IndexError` from indexing
the empty zip result, not an `InvalidSizeError`, which the code never
defines): for every token sequence, vocabulary construction with size 0
fails with an `IndexError` and returns no vocabulary. -/
theorem c7_zero_size_index_error (tokens : List String) :
    build_vocab tokens 0 = Except.error PyError.indexError := by
  unfold build_vocab most_common
  rw [List.take_zero, if_pos rfl]

/-- C8: when the cell-14 loop runs on the output of cell-8 filtering for
a vocabulary whose members are all keys of the id mapping (as they are
when the dict is built by enumerating that same vocabulary), every token
lookup succeeds: the `KeyError` branch is unreachable and the dataset is
produced. -/
theorem c8_lookup_never_fails (tokens voc enum : List String) (W : Nat)
    (hsub : ∀ w, w ∈ voc → w ∈ enum) :
    ∃ X Y, make_dataset (filter_tokens tokens voc) (word_to_ix enum) W
      = Except.ok (X, Y) := by
  have hf : ∀ w ∈ filter_tokens tokens voc, ((word_to_ix enum) w).isSome := by
    intro w hw
    have h1 : w ∈ voc := of_decide_eq_true (List.mem_filter.mp hw).2
    exact word_to_ix_isSome_of_mem enum w (hsub w h1)
  exact ⟨_, _, make_dataset_spec _ _ _ hf⟩

/-- Witness for C8 at the concrete input `tokens = ["c","a","c"]`,
`voc = ["a"]`, `enum = ["a","b"]`, `W = 1`. -/
theorem c8_lookup_never_fails_witness :
    (∀ w, w ∈ (["a"] : List String) → w ∈ (["a","b"] : List String)) ∧
    (∃ X Y, make_dataset (filter_tokens ["c","a","c"] ["a"]) (word_to_ix ["a","b"]) 1
      = Except.ok (X, Y)) :=
  ⟨by decide, c8_lookup_never_fails ["c","a","c"] ["a"] ["a","b"] 1 (by decide)⟩

/-- C9: the full pipeline — vocabulary construction, filtering and
windowing — is a pure function of the raw token sequence, the size `K`
and the window radius, so two runs on the same input yield the same
dataset (same context ids and target ids in the same order). -/
theorem c9_pipeline_deterministic (tokens1 tokens2 : List String) (K W : Nat)
    (h : tokens1 = tokens2) :
    full_pipeline tokens1 K W = full_pipeline tokens2 K W := by
  rw [h]

/-- Witness for C9 at the concrete input `["a","b","a"]`, `K = 2`,
`W = 1`. -/
theorem c9_pipeline_deterministic_witness :
    ((["a","b","a"] : List String) = ["a","b","a"]) ∧
    full_pipeline ["a","b","a"] 2 1 = full_pipeline ["a","b","a"] 2 1 :=
  ⟨rfl, c9_pipeline_deterministic ["a","b","a"] ["a","b","a"] 2 1 rfl⟩

/-- C10: for equal-length `X` and `Y` and batch size `B ≥ 1`, cell-12
yields the rows as consecutive non-overlapping slices in original order:
concatenating the yielded batches reproduces `X` and `Y` exactly, every
batch except possibly the last holds exactly `B` examples, and every
batch holds at most `B` examples with its `X` and `Y` parts aligned. -/
theorem c10_data_batcher_spec (B : Nat) (X : List (List Nat)) (Y : List Nat)
    (hB : 1 ≤ B) (hlen : Y.length = X.length) :
    ((data_batcher B X Y).map Prod.fst).flatten = X ∧
    ((data_batcher B X Y).map Prod.snd).flatten = Y ∧
    (∀ p ∈ (data_batcher B X Y).dropLast, p.1.length = B ∧ p.2.length = B) ∧
    (∀ p ∈ data_batcher B X Y, p.1.length ≤ B ∧ p.2.length = p.1.length) :=
  data_batcher_main B hB X.length X Y (Nat.le_refl _) hlen

/-- Witness for C10 at the concrete input `B = 2`,
`X = [[1],[2],[3],[4],[5]]`, `Y = [5,6,7,8,9]`. -/
theorem c10_data_batcher_spec_witness :
    (1 ≤ 2) ∧
    (([5,6,7,8,9] : List Nat).length = ([[1],[2],[3],[4],[5]] : List (List Nat)).length) ∧
    (((data_batcher 2 [[1],[2],[3],[4],[5]] [5,6,7,8,9]).map Prod.fst).flatten
        = [[1],[2],[3],[4],[5]] ∧
      ((data_batcher 2 [[1],[2],[3],[4],[5]] [5,6,7,8,9]).map Prod.snd).flatten = [5,6,7,8,9] ∧
      (∀ p ∈ (data_batcher 2 [[1],[2],[3],[4],[5]] [5,6,7,8,9]).dropLast,
        p.1.length = 2 ∧ p.2.length = 2) ∧
      (∀ p ∈ data_batcher 2 [[1],[2],[3],[4],[5]] [5,6,7,8,9],
        p.1.length ≤ 2 ∧ p.2.length = p.1.length)) :=
  ⟨by decide, by decide,
   c10_data_batcher_spec 2 [[1],[2],[3],[4],[5]] [5,6,7,8,9] (by decide) (by decide)⟩
